import Mathlib

/-!
# Shallow embedding of the shop-gen catalog pipeline

This file embeds the core services of the repository (the Pexels image
client, the DeepSeek content client, the catalog builder and the archive
service) as executable Lean definitions, and proves the specification's
claims about them.

Python strings are modelled as `List Char` (`Str`).  Network calls and
random draws are modelled as oracle parameters: an upstream HTTP response
becomes an explicit outcome value, and `random.uniform` / `random.randint`
/ `random.sample` become function parameters constrained by hypotheses
matching their documented semantics.
-/

set_option maxRecDepth 8000

namespace ShopGen

/-- Python strings, modelled as lists of characters. -/
abbrev Str := List Char

/-! ## Python string helpers -/

/-- Split `s` at the first occurrence of `sep`, returning the parts before
and after the separator; `none` when `sep` does not occur in `s`.
(Used to model Python's `str.split(sep)`.) -/
def findSplit (sep : Str) : Str → Option (Str × Str)
  | [] => none
  | c :: rest =>
    if sep.isPrefixOf (c :: rest) then some ([], (c :: rest).drop sep.length)
    else
      match findSplit sep rest with
      | none => none
      | some (a, b) => some (c :: a, b)

/-- Fueled worker for `splitOnSub`; each recursive step consumes at least
one character of `s` when `sep` is nonempty, so fuel `s.length + 1`
is always sufficient. -/
def splitOnSubFuel (sep : Str) : Nat → Str → List Str
  | 0, s => [s]
  | fuel + 1, s =>
    match findSplit sep s with
    | none => [s]
    | some (a, b) => a :: splitOnSubFuel sep fuel b

/-- Python's `s.split(sep)` for a nonempty separator `sep`. -/
def splitOnSub (sep s : Str) : List Str :=
  splitOnSubFuel sep (s.length + 1) s

/-- Python's `sub in s` substring test. -/
def containsSub (sep s : Str) : Bool :=
  (findSplit sep s).isSome

/-- Python whitespace characters stripped by `str.strip()` (ASCII part). -/
def isPyWhitespace (c : Char) : Bool :=
  c = ' ' || c = '\t' || c = '\n' || c = '\r' || c = '\x0b' || c = '\x0c'

/-- Python's `s.strip()`. -/
def stripWs (s : Str) : Str :=
  ((s.dropWhile isPyWhitespace).reverse.dropWhile isPyWhitespace).reverse

/-- Python's `s.strip(chars)`. -/
def stripChars (chars : Str) (s : Str) : Str :=
  ((s.dropWhile (chars.contains ·)).reverse.dropWhile (chars.contains ·)).reverse

/-- Python's `s.lower()` (ASCII case folding). -/
def lowerStr (s : Str) : Str := s.map Char.toLower

/-! ## DeepSeek client: fallback content (`_generate_fallback_content`) -/

/-- The fixed filler sentence appended by `_generate_fallback_content`
(`expansion_text` in `deepseek_client.py`). -/
def expansion_text : Str :=
  (" This high-quality product offers excellent value and is designed to meet your everyday needs. It features premium materials and craftsmanship that ensure durability and long-lasting performance. Perfect for both personal and professional use, this item combines functionality with style.").data

theorem expansion_text_length_pos : 0 < expansion_text.length := by decide

/-- Fueled form of the `while len(base_desc) < 400` loop; each iteration
grows the string by `expansion_text.length = 288 > 0` characters, so 400
iterations always reach the exit condition. -/
def expandDescFuel : Nat → Str → Str
  | 0, s => s
  | fuel + 1, s =>
    if s.length < 400 then expandDescFuel fuel (s ++ expansion_text) else s

/-- The `while len(base_desc) < 400: base_desc += expansion_text` loop. -/
def expandDesc (s : Str) : Str := expandDescFuel 400 s

/-- Embeds `DeepSeekClient._generate_fallback_content`: synthesizes a
`(title, description)` pair from the alt text alone. -/
def _generate_fallback_content (alt_text : Str) : Str × Str :=
  let title := if alt_text.length > 50 then alt_text.take 50 else alt_text
  let base_desc := alt_text
  let base_desc := if base_desc.length < 300 then expandDesc base_desc else base_desc
  let description := if base_desc.length > 500 then base_desc.take 500 else base_desc
  (title, description)

/-- What the spec sentence for the fallback description literally says:
the alt text extended by repeated appending of the filler sentence until
its length reaches a 400-character floor, then capped at 500 characters
(with no 300-character precondition). -/
def specFallbackDescription (alt_text : Str) : Str :=
  let expanded := expandDesc alt_text
  if expanded.length > 500 then expanded.take 500 else expanded

/-! ## DeepSeek client: content dictionaries and price generation -/

/-- The `{"title": ..., "description": ...}` dictionary returned by the
content-generation helpers. -/
structure ContentDict where
  title : Str
  description : Str
deriving DecidableEq

/-- One parsed JSON object from the upstream response; `.get` defaults are
modelled by `Option` fields. -/
structure ContentItem where
  title? : Option Str
  description? : Option Str
deriving DecidableEq

/-- Outcome of one single-item upstream call in `generate_product_content`:
`failure` covers any transport error, HTTP error status, or other exception
(the source catches `(requests.RequestException, Exception)`, i.e.
everything); `jsonObj` is a successfully parsed JSON object; `textResp`
is a 200 response whose body is not valid JSON
(`json.JSONDecodeError` path). -/
inductive ItemOutcome where
  | failure
  | jsonObj (parsed : ContentItem)
  | textResp (content : Str)
deriving DecidableEq

/-- Embeds `DeepSeekClient._parse_text_response`: line-oriented extraction of
title and description from a non-JSON text response. -/
def _parse_text_response (content alt_text : Str) : ContentDict :=
  let titleKey : Str := ("\"title\":").data
  let descKey : Str := ("\"description\":").data
  let quoteComma : Str := ("\",").data
  let lines := splitOnSub [Char.ofNat 10] content
  let res := lines.foldl (fun td line =>
    if containsSub titleKey line then
      (stripChars quoteComma (stripWs ((splitOnSub titleKey line).getD 1 [])), td.2)
    else if containsSub descKey line then
      let desc_line := stripChars quoteComma (stripWs ((splitOnSub descKey line).getD 1 []))
      if desc_line ≠ [] then (td.1, desc_line) else td
    else td) (alt_text.take 50, alt_text)
  ⟨res.1, res.2⟩

/-- Embeds `DeepSeekClient.generate_product_content`, parametrized by the upstream
outcome.  A parsed JSON value that is not an object raises inside the outer
`try` and is caught by its blanket handler, so it is covered by
`ItemOutcome.failure`. -/
def generate_product_content (alt_text : Str) (o : ItemOutcome) : ContentDict :=
  match o with
  | .jsonObj parsed =>
      ⟨parsed.title?.getD (alt_text.take 50), parsed.description?.getD alt_text⟩
  | .textResp content => _parse_text_response content alt_text
  | .failure =>
      let fb := _generate_fallback_content alt_text
      ⟨fb.1, fb.2⟩

/-- Rounding to 2 decimal places, `round(x, 2)`.  Python floats are
modelled as rationals. -/
def round2 (x : ℚ) : ℚ := (round (x * 100) : ℤ) / 100

/-- Embeds `DeepSeekClient.generate_price`, parametrized by the value `u` drawn by
`random.uniform(100, 10000)`. -/
def generate_price (u : ℚ) : ℚ × ℚ :=
  let old_price := round2 u
  let discount : ℚ := 10 / 100
  let new_price := round2 (old_price * (1 - discount))
  (old_price, new_price)

/-- One row of the output catalog (the dict built by
`generate_catalog_entry` / `generate_batch_catalog_entries`). -/
structure Entry where
  id : Nat
  title_en : Str
  description_en : Str
  category : Str
  old_price : ℚ
  new_price : ℚ
deriving DecidableEq

/-- Embeds `DeepSeekClient.generate_catalog_entry`. -/
def generate_catalog_entry (alt_text category : Str) (product_id : Nat)
    (o : ItemOutcome) (u : ℚ) : Entry :=
  let content := generate_product_content alt_text o
  let prices := generate_price u
  ⟨product_id, content.title, content.description, category, prices.1, prices.2⟩

/-! ## DeepSeek client: batch generation -/

/-- One fetched image record (`img` dict); only the fields the services
read are modelled. -/
structure ImageData where
  alt? : Option Str
  src_original? : Option Str
deriving DecidableEq

/-- Embeds `img.get('alt', 'Product image')`. -/
def imgAlt (img : ImageData) : Str :=
  img.alt?.getD (("Product image").data)

/-- Embeds `DeepSeekClient._generate_batch_fallback`: per-item generation with
1-based ids.  Its `try/except continue` is unreachable:
`generate_product_content` catches every exception internally and
`generate_price` cannot raise, so no item is ever skipped. -/
def _generate_batch_fallback (image_data : List ImageData) (category : Str)
    (itemO : Nat → ItemOutcome) (u : Nat → ℚ) : List Entry :=
  (List.enumFrom 1 image_data).map (fun p =>
    generate_catalog_entry (imgAlt p.2) category p.1 (itemO p.1) (u p.1))

/-- Joint outcome of the batch upstream call in
`generate_batch_catalog_entries`: transport/HTTP failure, a body that is
not JSON after markdown-fence stripping, a JSON value that is not a list,
or a parsed JSON array (whose length is then compared to the input). -/
inductive BatchOutcome where
  | httpFailure
  | jsonError
  | jsonNonArray
  | jsonArray (items : List ContentItem)
deriving DecidableEq

/-- Embeds `DeepSeekClient.generate_batch_catalog_entries`, parametrized by the
batch outcome `bo`, the per-item outcomes `itemO` used by the fallback
path, and the per-entry uniform price draws `u`.  In the success branch
the source indexes `alt_texts[i]` for `i` below the parsed length, which
equals the input length there; the zip expresses the same pairing. -/
def generate_batch_catalog_entries (image_data : List ImageData) (category : Str)
    (bo : BatchOutcome) (itemO : Nat → ItemOutcome) (u : Nat → ℚ) : List Entry :=
  if image_data.isEmpty then []
  else
    let alt_texts := image_data.map imgAlt
    match bo with
    | .jsonArray parsed =>
      if parsed.length = alt_texts.length then
        ((parsed.zip alt_texts).enum).map (fun p =>
          let prices := generate_price (u p.1)
          { id := p.1 + 1
            title_en := p.2.1.title?.getD (p.2.2.take 50)
            description_en := p.2.1.description?.getD p.2.2
            category := category
            old_price := prices.1
            new_price := prices.2 })
      else _generate_batch_fallback image_data category itemO u
    | _ => _generate_batch_fallback image_data category itemO u

/-! ## Pexels client -/

/-- The query parameters `search_images` sends upstream. -/
structure SearchParams where
  query : Str
  per_page : Int
  page : Int
deriving DecidableEq

/-- Embeds `PexelsClient.search_images`: the request parameters built from the
caller's arguments (`per_page` is clamped with `min(per_page, 80)`). -/
def search_images_params (query : Str) (per_page page : Int) : SearchParams :=
  ⟨query, min per_page 80, page⟩

/-- A filesystem snapshot: the set of existing directories and the files
(path, contents) written so far. -/
structure FileSys where
  dirs : List Str
  files : List (Str × Str)
deriving DecidableEq

/-- Embeds `os.makedirs(d, exist_ok=True)`. -/
def os_makedirs (fs : FileSys) (d : Str) : FileSys :=
  ⟨if fs.dirs.contains d then fs.dirs else d :: fs.dirs, fs.files⟩

/-- Embeds `os.path.join(a, b)` on POSIX. -/
def os_path_join (a b : Str) : Str := a ++ ['/'] ++ b

/-- Outcome of the `requests.get(url)` + `raise_for_status()` pair inside
`download_image`: `failure` is a transport error or a non-success status. -/
inductive FetchOutcome where
  | failure
  | success (content : Str)
deriving DecidableEq

/-- Embeds `PexelsClient.download_image`, as a state transformer on the
filesystem: makedirs, then fetch; only on fetch success is the file opened
and written.  On failure the exception propagates (`Except.error`) with
the directory already created but no file written. -/
def download_image (fs : FileSys) (filename download_dir : Str)
    (fetch : FetchOutcome) : FileSys × Except Str Str :=
  let fs1 := os_makedirs fs download_dir
  let filepath := os_path_join download_dir filename
  match fetch with
  | .failure => (fs1, .error (("Download failed").data))
  | .success content => (⟨fs1.dirs, (filepath, content) :: fs1.files⟩, .ok filepath)

/-- The pagination loop of `get_images_for_theme`.  `search page` is the
outcome of `search_images(theme, per_page=80, page=page)`: `none` models a
`requests.RequestException` (break), `some []` an empty photo list
(break); otherwise the photos are accumulated and the page counter
advances, stopping at the safety limit `page > 10`. -/
def fetch_pool_go (search : Nat → Option (List ImageData)) (max_images : Nat) :
    Nat → Nat → List ImageData → List ImageData
  | 0, _, all_images => all_images
  | fuel + 1, page, all_images =>
    if all_images.length < max_images then
      match search page with
      | none => all_images
      | some [] => all_images
      | some photos =>
        let acc := all_images ++ photos
        if page + 1 > 10 then acc
        else fetch_pool_go search max_images fuel (page + 1) acc
    else all_images

/-- The candidate pool accumulated by `get_images_for_theme` before
sampling.  The loop starts at page 1 with an empty accumulator; it only
continues while `page + 1 ≤ 10`, so with initial fuel `10 = 11 - 1` the
fuel never runs out and the fueled loop equals the source's `while`
loop. -/
def fetch_pool (search : Nat → Option (List ImageData)) (max_images : Nat) :
    List ImageData :=
  fetch_pool_go search max_images 10 1 []

/-- Embeds `PexelsClient.get_images_for_theme`, parametrized by the search
outcomes and by oracles for `random.randint` and `random.sample`. -/
def get_images_for_theme (search : Nat → Option (List ImageData))
    (min_images max_images : Nat)
    (randint : Nat → Nat → Nat)
    (sample : List ImageData → Nat → List ImageData) : List ImageData :=
  let all_images := fetch_pool search max_images
  let max_selectable := min max_images all_images.length
  if max_selectable < min_images then all_images
  else sample all_images (randint min_images max_selectable)

/-! ## Catalog builder -/

/-- The fixed batch size used by `build_catalog`. -/
def batch_size : Nat := 20

/-- Fueled worker for `chunksOf`: every step on a nonempty list removes at
least one element when `0 < n`, so fuel `xs.length` never runs out. -/
def chunksOfFuel {α : Type} (n : Nat) : Nat → List α → List (List α)
  | _, [] => []
  | 0, xs => [xs]
  | fuel + 1, x :: xs =>
    ((x :: xs).take n) :: chunksOfFuel n fuel ((x :: xs).drop n)

/-- The chunks `images[i:i+n]` for `i in range(0, len(images), n)`. -/
def chunksOf {α : Type} (n : Nat) (xs : List α) : List (List α) :=
  chunksOfFuel n xs.length xs

/-- Step 3 of `CatalogBuilder.build_catalog`: batch content generation
over chunks of 20, concatenating the per-chunk results in order.  The
oracles are indexed by chunk number. -/
def build_catalog_entries (images : List ImageData) (theme : Str)
    (bo : Nat → BatchOutcome) (itemO : Nat → Nat → ItemOutcome)
    (u : Nat → Nat → ℚ) : List Entry :=
  ((chunksOf batch_size images).enum.map (fun p =>
    generate_batch_catalog_entries p.2 theme (bo p.1) (itemO p.1) (u p.1))).flatten

/-- The artifacts of one `build_catalog` run: the generated entries, the
1-based indices of successfully downloaded images, and whether the CSV was
written (`_save_csv_catalog` writes nothing for an empty entry list). -/
structure CatalogRunResult where
  entries : List Entry
  downloaded : List Nat
  csvWritten : Bool
deriving DecidableEq

/-- The message of the `ValueError` raised by `build_catalog` when no
images were fetched (the spec calls it `NoImagesError`). -/
def noImagesMsg : Str := ("No images found for the selected theme").data

/-- Embeds `CatalogBuilder.build_catalog`: fetch the pool via
`get_images_for_theme` (defaults 160/240), raise iff it is empty,
otherwise generate entries per chunk, attempt each download (a missing
`src.original` key or a failed fetch is caught and skipped, never
propagated), and write the CSV. -/
def build_catalog (theme : Str) (search : Nat → Option (List ImageData))
    (randint : Nat → Nat → Nat)
    (sample : List ImageData → Nat → List ImageData)
    (bo : Nat → BatchOutcome) (itemO : Nat → Nat → ItemOutcome)
    (u : Nat → Nat → ℚ) (downloadOk : Nat → Bool) :
    Except Str CatalogRunResult :=
  let images := get_images_for_theme search 160 240 randint sample
  if images.isEmpty then .error noImagesMsg
  else
    let entries := build_catalog_entries images theme bo itemO u
    let downloaded := ((List.enumFrom 1 images).filter
        (fun p => p.2.src_original?.isSome && downloadOk p.1)).map Prod.fst
    .ok ⟨entries, downloaded, !entries.isEmpty⟩

/-! ## Archive service -/

/-- Embeds `file.lower().endswith(('.jpg', '.jpeg', '.png'))`. -/
def hasImageExt (f : Str) : Bool :=
  ((".jpg").data).isSuffixOf (lowerStr f)
    || ((".jpeg").data).isSuffixOf (lowerStr f)
    || ((".png").data).isSuffixOf (lowerStr f)

/-- A catalog directory as `create_catalog_archive` inspects it: whether
it exists, whether `catalog.csv` exists, whether the `images`
subdirectory exists, and the filenames found under it by `os.walk`. -/
structure CatalogDir where
  dirExists : Bool
  hasCsv : Bool
  hasImagesDir : Bool
  imageFiles : List Str
deriving DecidableEq

/-- The fixed CSV member name. -/
def csvMemberName : Str := ("catalog.csv").data

/-- The `images/` member name prefix used inside the archive. -/
def imagesMemberPre : Str := ("images/").data

/-- Embeds `ArchiveService.create_catalog_archive`: after the existence checks,
writes the CSV under the fixed top-level name and every image-extension
file under `images/`, returning the archive's member list. -/
def create_catalog_archive (d : CatalogDir) : Except Str (List Str) :=
  if !d.dirExists then .error (("Source directory does not exist").data)
  else if !d.hasCsv then .error (("catalog.csv not found in source directory").data)
  else if !d.hasImagesDir then .error (("images directory not found in source directory").data)
  else .ok (csvMemberName :: (d.imageFiles.filter hasImageExt).map (fun f => imagesMemberPre ++ f))

/-- What `validate_archive` finds at its input path: no file at all, a
file that is not a well-formed zip, or a readable archive with a member
list. -/
inductive ArchivePath where
  | missing
  | badZip
  | archive (members : List Str)
deriving DecidableEq

/-- The dict returned by `validate_archive`; keys absent from a given
return are `none`. -/
structure ValidationResult where
  valid : Bool
  has_csv : Option Bool
  image_count : Option Nat
  total_files : Option Nat
  file_list : Option (List Str)
  error : Option Str
deriving DecidableEq

/-- Membership of an archive member in the image count: it starts with
`images/` and has an image extension. -/
def isImageMember (f : Str) : Bool :=
  imagesMemberPre.isPrefixOf f && hasImageExt f

/-- Embeds `ArchiveService.validate_archive`: a total function — every input
shape yields a structured result, never an exception. -/
def validate_archive (p : ArchivePath) : ValidationResult :=
  match p with
  | .missing =>
      ⟨false, none, none, none, none, some (("Archive file does not exist").data)⟩
  | .badZip =>
      ⟨false, none, none, none, none, some (("Invalid ZIP file").data)⟩
  | .archive members =>
      let has_csv := members.contains csvMemberName
      let image_files := members.filter isImageMember
      ⟨has_csv && !image_files.isEmpty, some has_csv, some image_files.length,
        some members.length, some (members.take 10), none⟩

/-! ## Theorems -/

theorem _generate_batch_fallback_length (image_data : List ImageData)
    (category : Str) (itemO : Nat → ItemOutcome) (u : Nat → ℚ) :
    (_generate_batch_fallback image_data category itemO u).length
      = image_data.length := by
  simp [_generate_batch_fallback]

/-- C1: for every list of image descriptors and every upstream outcome of
the content API (valid JSON array of matching length, valid array of
mismatched length, non-JSON text, or HTTP/transport failure),
`generate_batch_catalog_entries` returns a list whose length equals the
length of the input descriptor list. -/
theorem generate_batch_length_eq (image_data : List ImageData) (category : Str)
    (bo : BatchOutcome) (itemO : Nat → ItemOutcome) (u : Nat → ℚ) :
    (generate_batch_catalog_entries image_data category bo itemO u).length
      = image_data.length := by
  unfold generate_batch_catalog_entries
  by_cases he : image_data.isEmpty
  · rw [List.isEmpty_iff] at he
    simp [he]
  · simp only [he, if_false]
    cases bo with
    | httpFailure => exact _generate_batch_fallback_length ..
    | jsonError => exact _generate_batch_fallback_length ..
    | jsonNonArray => exact _generate_batch_fallback_length ..
    | jsonArray parsed =>
      by_cases hlen : parsed.length = (image_data.map imgAlt).length
      · simp [hlen]
      · simp only [hlen, if_false]
        exact _generate_batch_fallback_length ..

/-- C2 counterexample: for the 350-character alt text `'a' * 350`, the
code's fallback description is the alt text unchanged (350 characters),
while the claim's description (extension by the filler sentence up to the
400-character floor, capped at 500) has 500 characters. -/
theorem fallback_description_counterexample :
    (_generate_fallback_content (List.replicate 350 'a')).2
      ≠ specFallbackDescription (List.replicate 350 'a') := by
  intro heq
  have h1 : (_generate_fallback_content (List.replicate 350 'a')).2.length = 350 := by
    rfl
  have h2 : (specFallbackDescription (List.replicate 350 'a')).length = 500 := by
    rfl
  rw [heq, h2] at h1
  exact absurd h1 (by decide)

/-- C2 (amended): the fallback title is the alt text truncated to 50
characters; the fallback description is the alt text extended by repeated
appending of the fixed filler sentence until it reaches the 400-character
floor and then capped at 500 characters only when the alt text is shorter
than 300 characters; an alt text of 300 characters or more is kept as the
description unchanged, except for the 500-character cap. -/
theorem fallback_content_amended (alt_text : Str) :
    (_generate_fallback_content alt_text).1 = alt_text.take 50
    ∧ (alt_text.length < 300 →
        (_generate_fallback_content alt_text).2 = specFallbackDescription alt_text)
    ∧ (300 ≤ alt_text.length →
        (_generate_fallback_content alt_text).2 =
          if alt_text.length > 500 then alt_text.take 500 else alt_text) := by
  refine ⟨?_, ?_, ?_⟩
  · simp only [_generate_fallback_content]
    split
    · rfl
    · next h =>
      exact (List.take_of_length_le (by omega)).symm
  · intro h
    simp [_generate_fallback_content, specFallbackDescription, h]
  · intro h
    simp [_generate_fallback_content, Nat.not_lt.mpr h]

/-- Witness for the amended C2 theorem at the concrete alt text
`"Red shoes"` (length 9 < 300) and `'b' * 300` (length 300). -/
theorem fallback_content_amended_witness :
    (("Red shoes").data).length < 300
    ∧ (_generate_fallback_content (("Red shoes").data)).2
        = specFallbackDescription (("Red shoes").data)
    ∧ 300 ≤ (List.replicate 300 'b').length
    ∧ (_generate_fallback_content (List.replicate 300 'b')).2
        = (if (List.replicate 300 'b').length > 500
           then (List.replicate 300 'b').take 500 else List.replicate 300 'b') :=
  ⟨by decide,
   (fallback_content_amended (("Red shoes").data)).2.1 (by decide),
   by decide,
   (fallback_content_amended (List.replicate 300 'b')).2.2 (by decide)⟩

theorem get_images_for_theme_eq (search : Nat → Option (List ImageData))
    (min_images max_images : Nat) (randint : Nat → Nat → Nat)
    (sample : List ImageData → Nat → List ImageData) :
    get_images_for_theme search min_images max_images randint sample =
      if min max_images (fetch_pool search max_images).length < min_images
      then fetch_pool search max_images
      else sample (fetch_pool search max_images)
        (randint min_images (min max_images (fetch_pool search max_images).length)) := rfl

/-- C3: writing P for the size of the accumulated candidate pool, the list
returned by `get_images_for_theme` is the entire pool when P < min_images,
and otherwise has a length in [min_images, min(max_images, P)] with its
elements sampled without replacement from the pool, where `randint` and
`sample` have the semantics of `random.randint` and `random.sample`. -/
theorem get_images_for_theme_length_bounds
    (search : Nat → Option (List ImageData)) (min_images max_images : Nat)
    (randint : Nat → Nat → Nat) (sample : List ImageData → Nat → List ImageData)
    (hminmax : min_images ≤ max_images)
    (hrand : ∀ a b, a ≤ b → a ≤ randint a b ∧ randint a b ≤ b)
    (hsample : ∀ (xs : List ImageData) (n : Nat), n ≤ xs.length →
        (sample xs n).length = n ∧ sample xs n ⊆ xs) :
    ((fetch_pool search max_images).length < min_images →
        get_images_for_theme search min_images max_images randint sample
          = fetch_pool search max_images)
    ∧ (min_images ≤ (fetch_pool search max_images).length →
        min_images
            ≤ (get_images_for_theme search min_images max_images randint sample).length
        ∧ (get_images_for_theme search min_images max_images randint sample).length
            ≤ max_images
        ∧ (get_images_for_theme search min_images max_images randint sample).length
            ≤ (fetch_pool search max_images).length
        ∧ get_images_for_theme search min_images max_images randint sample
            ⊆ fetch_pool search max_images) := by
  constructor
  · intro hP
    rw [get_images_for_theme_eq]
    have hlt : min max_images (fetch_pool search max_images).length < min_images :=
      lt_of_le_of_lt (Nat.min_le_right _ _) hP
    rw [if_pos hlt]
  · intro hP
    have hsel : min_images ≤ min max_images (fetch_pool search max_images).length :=
      le_min hminmax hP
    rw [get_images_for_theme_eq, if_neg (Nat.not_lt.mpr hsel)]
    obtain ⟨hk1, hk2⟩ := hrand _ _ hsel
    have hklen : randint min_images (min max_images (fetch_pool search max_images).length)
        ≤ (fetch_pool search max_images).length :=
      le_trans hk2 (Nat.min_le_right _ _)
    obtain ⟨hlen, hsub⟩ := hsample _ _ hklen
    have hkmax : randint min_images (min max_images (fetch_pool search max_images).length)
        ≤ max_images :=
      le_trans hk2 (Nat.min_le_left _ _)
    exact ⟨by omega, by omega, by omega, hsub⟩

theorem wRand_spec : ∀ a b : Nat, a ≤ b → a ≤ a ∧ a ≤ b :=
  fun _ _ h => ⟨le_refl _, h⟩

theorem wSample_spec : ∀ (xs : List ImageData) (n : Nat), n ≤ xs.length →
    (xs.take n).length = n ∧ xs.take n ⊆ xs :=
  fun xs n h => ⟨by simpa using h, List.take_subset n xs⟩

/-- Witness for C3 at a concrete search oracle yielding a 3-image pool,
bounds 2/5, `randint` returning the lower bound and `sample` taking a
prefix. -/
theorem get_images_for_theme_length_bounds_witness :
    ((2 : Nat) ≤ 5)
    ∧ (2 ≤ (fetch_pool (fun p => if p = 1 then some [⟨some [], none⟩, ⟨some [], none⟩, ⟨some [], none⟩] else none) 5).length)
    ∧ 2 ≤ (get_images_for_theme
        (fun p => if p = 1 then some [⟨some [], none⟩, ⟨some [], none⟩, ⟨some [], none⟩] else none)
        2 5 (fun a _ => a) (fun xs n => xs.take n)).length
    ∧ (get_images_for_theme
        (fun p => if p = 1 then some [⟨some [], none⟩, ⟨some [], none⟩, ⟨some [], none⟩] else none)
        2 5 (fun a _ => a) (fun xs n => xs.take n)).length ≤ 5 := by
  have h := get_images_for_theme_length_bounds
    (fun p => if p = 1 then some [⟨some [], none⟩, ⟨some [], none⟩, ⟨some [], none⟩] else none)
    2 5 (fun a _ => a) (fun xs n => xs.take n) (by decide) wRand_spec wSample_spec
  have hP : 2 ≤ (fetch_pool (fun p => if p = 1 then some [⟨some [], none⟩, ⟨some [], none⟩, ⟨some [], none⟩] else none) 5).length := by
    decide
  obtain ⟨h1, h2, _, _⟩ := h.2 hP
  exact ⟨by decide, hP, h1, h2⟩

theorem chunksOfFuel_fuel_irrel {α : Type} (n : Nat) (hn : 0 < n) :
    ∀ (fuel1 fuel2 : Nat) (xs : List α), xs.length ≤ fuel1 → xs.length ≤ fuel2 →
      chunksOfFuel n fuel1 xs = chunksOfFuel n fuel2 xs := by
  intro fuel1
  induction fuel1 with
  | zero =>
    intro fuel2 xs h1 h2
    have hx : xs = [] := List.eq_nil_of_length_eq_zero (Nat.le_zero.mp h1)
    subst hx
    cases fuel2 <;> rfl
  | succ f ih =>
    intro fuel2 xs h1 h2
    cases xs with
    | nil => cases fuel2 <;> rfl
    | cons x xs' =>
      cases fuel2 with
      | zero => simp at h2
      | succ f2 =>
        show ((x :: xs').take n) :: chunksOfFuel n f ((x :: xs').drop n)
          = ((x :: xs').take n) :: chunksOfFuel n f2 ((x :: xs').drop n)
        congr 1
        apply ih
        · simp only [List.length_drop, List.length_cons]
          simp only [List.length_cons] at h1
          omega
        · simp only [List.length_drop, List.length_cons]
          simp only [List.length_cons] at h2
          omega

theorem chunksOf_eq_cons {α : Type} (n : Nat) (hn : 0 < n) (xs : List α)
    (hx : xs ≠ []) :
    chunksOf n xs = xs.take n :: chunksOf n (xs.drop n) := by
  cases xs with
  | nil => exact absurd rfl hx
  | cons x xs' =>
    show chunksOfFuel n (xs'.length + 1) (x :: xs')
      = ((x :: xs').take n) :: chunksOf n ((x :: xs').drop n)
    rw [show chunksOfFuel n (xs'.length + 1) (x :: xs')
        = ((x :: xs').take n) :: chunksOfFuel n xs'.length ((x :: xs').drop n) from rfl]
    congr 1
    apply chunksOfFuel_fuel_irrel n hn
    · simp only [List.length_drop, List.length_cons]
      omega
    · exact le_refl _

theorem chunksOf_flatten {α : Type} (n : Nat) (hn : 0 < n) (xs : List α) :
    (chunksOf n xs).flatten = xs := by
  by_cases hx : xs = []
  · subst hx; rfl
  · rw [chunksOf_eq_cons n hn xs hx, List.flatten_cons,
      chunksOf_flatten n hn (xs.drop n), List.take_append_drop]
termination_by xs.length
decreasing_by
  have : 0 < xs.length := List.length_pos.mpr hx
  simp only [List.length_drop]
  omega

theorem chunksOf_mem_bounds {α : Type} (n : Nat) (hn : 0 < n) (xs : List α) :
    ∀ c ∈ chunksOf n xs, c.length ≤ n ∧ c ≠ [] := by
  intro c hc
  by_cases hx : xs = []
  · subst hx
    simp [chunksOf, chunksOfFuel] at hc
  · rw [chunksOf_eq_cons n hn xs hx] at hc
    rcases List.mem_cons.mp hc with h | h
    · subst h
      refine ⟨by simp, ?_⟩
      rw [Ne, List.take_eq_nil_iff]
      push_neg
      exact ⟨by omega, hx⟩
    · exact chunksOf_mem_bounds n hn (xs.drop n) c h
termination_by xs.length
decreasing_by
  have : 0 < xs.length := List.length_pos.mpr hx
  simp only [List.length_drop]
  omega

theorem _generate_batch_fallback_ids (image_data : List ImageData) (category : Str)
    (itemO : Nat → ItemOutcome) (u : Nat → ℚ) :
    (_generate_batch_fallback image_data category itemO u).map Entry.id
      = List.range' 1 image_data.length := by
  unfold _generate_batch_fallback
  rw [List.map_map]
  have hfun : (Entry.id ∘ fun p : Nat × ImageData =>
      generate_catalog_entry (imgAlt p.2) category p.1 (itemO p.1) (u p.1))
        = Prod.fst := by
    funext p; rfl
  rw [hfun, List.enumFrom_map_fst]

theorem generate_batch_ids (image_data : List ImageData) (category : Str)
    (bo : BatchOutcome) (itemO : Nat → ItemOutcome) (u : Nat → ℚ) :
    (generate_batch_catalog_entries image_data category bo itemO u).map Entry.id
      = List.range' 1 image_data.length := by
  unfold generate_batch_catalog_entries
  by_cases he : image_data.isEmpty
  · rw [List.isEmpty_iff] at he
    simp [he]
  · simp only [he, if_false]
    cases bo with
    | httpFailure => exact _generate_batch_fallback_ids ..
    | jsonError => exact _generate_batch_fallback_ids ..
    | jsonNonArray => exact _generate_batch_fallback_ids ..
    | jsonArray parsed =>
      by_cases hlen : parsed.length = (image_data.map imgAlt).length
      · simp only [Bool.false_eq_true, if_false, hlen, eq_self_iff_true, if_true,
          List.map_map, Function.comp_def]
        have hfun : (fun p : Nat × (ContentItem × Str) => p.1 + 1)
            = (fun k => 1 + k) ∘ Prod.fst := by
          funext p
          simp [Nat.add_comm]
        simp only [List.enum]
        rw [hfun, ← List.map_map, List.enumFrom_map_fst, List.map_add_range']
        rw [List.length_zip, List.length_map, hlen, List.length_map, Nat.min_self]
      · simp only [hlen, if_false]
        exact _generate_batch_fallback_ids ..

/-- C4: `build_catalog` partitions the selected images into fixed-size
chunks of 20 in original order (a 50-image run gives chunk sizes
[20, 20, 10]), calls `generate_batch_catalog_entries` once per chunk and
concatenates the results in chunk order; within each chunk the entry ids
are the 1-based positions restarting at 1, so ids are unique per chunk
but not globally (for the 50-image run the id sequence is
1..20, 1..20, 1..10, which has duplicates). -/
theorem build_catalog_chunking :
    (∀ (α : Type) (xs : List α), (chunksOf 20 xs).flatten = xs
        ∧ ∀ c ∈ chunksOf 20 xs, c.length ≤ 20 ∧ c ≠ [])
    ∧ ((chunksOf 20 (List.range 50)).map List.length = [20, 20, 10])
    ∧ (∀ (images : List ImageData) (theme : Str) (bo : Nat → BatchOutcome)
        (itemO : Nat → Nat → ItemOutcome) (u : Nat → Nat → ℚ),
        build_catalog_entries images theme bo itemO u
          = ((chunksOf 20 images).enum.map (fun p =>
              generate_batch_catalog_entries p.2 theme (bo p.1) (itemO p.1) (u p.1))).flatten)
    ∧ (∀ (d : List ImageData) (c : Str) (bo : BatchOutcome)
        (iOut : Nat → ItemOutcome) (pu : Nat → ℚ),
        (generate_batch_catalog_entries d c bo iOut pu).map Entry.id
          = List.range' 1 d.length)
    ∧ ((build_catalog_entries (List.replicate 50 ⟨some [], none⟩) []
          (fun _ => BatchOutcome.httpFailure)
          (fun _ _ => ItemOutcome.jsonObj ⟨some [], some []⟩)
          (fun _ _ => 0)).map Entry.id
        = List.range' 1 20 ++ List.range' 1 20 ++ List.range' 1 10
       ∧ ¬ (List.range' 1 20 ++ List.range' 1 20 ++ List.range' 1 10 : List Nat).Nodup) := by
  refine ⟨fun α xs => ⟨chunksOf_flatten 20 (by omega) xs, chunksOf_mem_bounds 20 (by omega) xs⟩,
    by decide, fun images theme bo itemO u => rfl, generate_batch_ids, by decide, by decide⟩

/-- Witness for C4: the first 20-element chunk of a 50-element list is a
chunk, and the theorem bounds its length. -/
theorem build_catalog_chunking_witness :
    ((List.range 50).take 20 ∈ chunksOf 20 (List.range 50))
    ∧ ((List.range 50).take 20).length ≤ 20 ∧ (List.range 50).take 20 ≠ [] :=
  ⟨by decide, (build_catalog_chunking.1 Nat (List.range 50)).2 _ (by decide)⟩

theorem build_catalog_eq (theme : Str) (search : Nat → Option (List ImageData))
    (randint : Nat → Nat → Nat) (sample : List ImageData → Nat → List ImageData)
    (bo : Nat → BatchOutcome) (itemO : Nat → Nat → ItemOutcome)
    (u : Nat → Nat → ℚ) (downloadOk : Nat → Bool) :
    build_catalog theme search randint sample bo itemO u downloadOk =
      if (get_images_for_theme search 160 240 randint sample).isEmpty
      then Except.error noImagesMsg
      else Except.ok
        ⟨build_catalog_entries (get_images_for_theme search 160 240 randint sample)
            theme bo itemO u,
         ((List.enumFrom 1 (get_images_for_theme search 160 240 randint sample)).filter
            (fun p => p.2.src_original?.isSome && downloadOk p.1)).map Prod.fst,
         !(build_catalog_entries (get_images_for_theme search 160 240 randint sample)
            theme bo itemO u).isEmpty⟩ := rfl

/-- C5: `build_catalog` fails hard (with the `No images found` error, the
spec's NoImagesError) if and only if the image list returned by the
candidate-pool fetch is empty; this is the only failure it propagates —
content-generation outcomes and per-image download failures never yield
an error. -/
theorem build_catalog_hard_failure (theme : Str)
    (search : Nat → Option (List ImageData)) (randint : Nat → Nat → Nat)
    (sample : List ImageData → Nat → List ImageData)
    (bo : Nat → BatchOutcome) (itemO : Nat → Nat → ItemOutcome)
    (u : Nat → Nat → ℚ) (downloadOk : Nat → Bool) :
    ((∃ e, build_catalog theme search randint sample bo itemO u downloadOk
          = Except.error e)
        ↔ get_images_for_theme search 160 240 randint sample = [])
    ∧ (build_catalog theme search randint sample bo itemO u downloadOk
          = Except.error noImagesMsg
        ↔ get_images_for_theme search 160 240 randint sample = []) := by
  rw [build_catalog_eq]
  by_cases he : (get_images_for_theme search 160 240 randint sample).isEmpty
  · have heq : get_images_for_theme search 160 240 randint sample = [] :=
      List.isEmpty_iff.mp he
    simp [he, heq]
  · have hne : get_images_for_theme search 160 240 randint sample ≠ [] :=
      fun h => he (List.isEmpty_iff.mpr h)
    simp [he, hne]

theorem round_q_mono {x y : ℚ} (h : x ≤ y) : round x ≤ round y := by
  rw [round_eq, round_eq]
  exact Int.floor_mono (by linarith)

theorem round2_mono {x y : ℚ} (h : x ≤ y) : round2 x ≤ round2 y := by
  unfold round2
  rw [div_le_div_iff_of_pos_right (by norm_num : (0:ℚ) < 100)]
  exact_mod_cast round_q_mono (mul_le_mul_of_nonneg_right h (by norm_num : (0:ℚ) ≤ 100))

theorem round2_100 : round2 (100 : ℚ) = 100 := by
  unfold round2
  norm_num

theorem round2_10000 : round2 (10000 : ℚ) = 10000 := by
  unfold round2
  norm_num

theorem round2_range {u : ℚ} (h1 : 100 ≤ u) (h2 : u ≤ 10000) :
    100 ≤ round2 u ∧ round2 u ≤ 10000 :=
  ⟨round2_100 ▸ round2_mono h1, round2_10000 ▸ round2_mono h2⟩

theorem round2_den (x : ℚ) : ∃ m : ℤ, round2 x = (m : ℚ) / 100 :=
  ⟨round (x * 100), rfl⟩

/-- Every entry produced by `generate_batch_catalog_entries` (on both the
batch-success path and the per-item fallback path) carries a price pair
produced by one `generate_price` call on one of the uniform draws. -/
theorem entry_prices_from_generate_price (image_data : List ImageData)
    (category : Str) (bo : BatchOutcome) (itemO : Nat → ItemOutcome)
    (u : Nat → ℚ) :
    ∀ e ∈ generate_batch_catalog_entries image_data category bo itemO u,
      ∃ i, e.old_price = (generate_price (u i)).1
        ∧ e.new_price = (generate_price (u i)).2 := by
  have hfb : ∀ e ∈ _generate_batch_fallback image_data category itemO u,
      ∃ i, e.old_price = (generate_price (u i)).1
        ∧ e.new_price = (generate_price (u i)).2 := by
    intro e he
    unfold _generate_batch_fallback at he
    obtain ⟨p, _, hpe⟩ := List.mem_map.mp he
    exact ⟨p.1, by rw [← hpe]; exact ⟨rfl, rfl⟩⟩
  intro e he
  unfold generate_batch_catalog_entries at he
  by_cases hemp : image_data.isEmpty
  · simp [hemp] at he
  · simp only [hemp, if_false] at he
    cases bo with
    | httpFailure => exact hfb e he
    | jsonError => exact hfb e he
    | jsonNonArray => exact hfb e he
    | jsonArray parsed =>
      by_cases hlen : parsed.length = (image_data.map imgAlt).length
      · simp only [hlen, eq_self_iff_true, if_true] at he
        obtain ⟨p, _, hpe⟩ := List.mem_map.mp he
        exact ⟨p.1, by rw [← hpe]; exact ⟨rfl, rfl⟩⟩
      · simp only [hlen, if_false] at he
        exact hfb e he

/-- C6: for every uniform draw in [100, 10000], `generate_price` yields an
old price in [100, 10000] that is an integer number of cents (rounded to
2 decimals), and a new price equal to `round(old_price * 0.9, 2)`; the
same invariant holds for every entry of `generate_batch_catalog_entries`
whenever the per-entry uniform draws are in range, on success and failure
paths alike. -/
theorem price_invariant (u : ℚ) (h1 : 100 ≤ u) (h2 : u ≤ 10000) :
    (100 ≤ (generate_price u).1 ∧ (generate_price u).1 ≤ 10000
      ∧ (∃ m : ℤ, (generate_price u).1 = (m : ℚ) / 100)
      ∧ (generate_price u).2 = round2 ((generate_price u).1 * (9 / 10)))
    ∧ ∀ (image_data : List ImageData) (category : Str) (bo : BatchOutcome)
        (itemO : Nat → ItemOutcome) (us : Nat → ℚ),
        (∀ i, 100 ≤ us i ∧ us i ≤ 10000) →
        ∀ e ∈ generate_batch_catalog_entries image_data category bo itemO us,
          100 ≤ e.old_price ∧ e.old_price ≤ 10000
          ∧ (∃ m : ℤ, e.old_price = (m : ℚ) / 100)
          ∧ e.new_price = round2 (e.old_price * (9 / 10)) := by
  have hnine : ∀ v : ℚ, (generate_price v).2 = round2 ((generate_price v).1 * (9 / 10)) := by
    intro v
    show round2 (round2 v * (1 - 10 / 100)) = round2 (round2 v * (9 / 10))
    norm_num
  constructor
  · obtain ⟨hlo, hhi⟩ := round2_range h1 h2
    exact ⟨hlo, hhi, round2_den u, hnine u⟩
  · intro image_data category bo itemO us hus e he
    obtain ⟨i, hold, hnew⟩ :=
      entry_prices_from_generate_price image_data category bo itemO us e he
    obtain ⟨hlo, hhi⟩ := round2_range (hus i).1 (hus i).2
    refine ⟨hold ▸ hlo, hold ▸ hhi, hold ▸ round2_den (us i), ?_⟩
    rw [hold, hnew, hnine (us i)]

/-- Witness for C6 at the draw 250.5 and a one-image batch whose upstream
call failed. -/
theorem price_invariant_witness :
    ((100 : ℚ) ≤ 2505 / 10 ∧ (2505 / 10 : ℚ) ≤ 10000)
    ∧ (100 ≤ (generate_price (2505 / 10)).1 ∧ (generate_price (2505 / 10)).1 ≤ 10000)
    ∧ (∀ i : Nat, 100 ≤ (fun _ : Nat => (2505 / 10 : ℚ)) i
        ∧ (fun _ : Nat => (2505 / 10 : ℚ)) i ≤ 10000)
    ∧ ∀ e ∈ generate_batch_catalog_entries [⟨some [], none⟩] []
        BatchOutcome.httpFailure (fun _ => ItemOutcome.failure)
        (fun _ => (2505 / 10 : ℚ)),
        100 ≤ e.old_price ∧ e.old_price ≤ 10000
        ∧ (∃ m : ℤ, e.old_price = (m : ℚ) / 100)
        ∧ e.new_price = round2 (e.old_price * (9 / 10)) := by
  have h := price_invariant (2505 / 10) (by norm_num) (by norm_num)
  refine ⟨⟨by norm_num, by norm_num⟩, ⟨h.1.1, h.1.2.1⟩,
    fun i => ⟨by norm_num, by norm_num⟩, ?_⟩
  intro e he
  exact h.2 [⟨some [], none⟩] [] BatchOutcome.httpFailure (fun _ => ItemOutcome.failure)
    (fun _ => (2505 / 10 : ℚ)) (fun i => ⟨by norm_num, by norm_num⟩) e he

theorem isSuffixOf_append_left (t p l : Str) (h : t.isSuffixOf l = true) :
    t.isSuffixOf (p ++ l) = true := by
  rw [List.isSuffixOf_iff_suffix] at h ⊢
  exact h.trans (List.suffix_append p l)

theorem hasImageExt_prepend (pre f : Str) (h : hasImageExt f = true) :
    hasImageExt (pre ++ f) = true := by
  unfold hasImageExt lowerStr at h ⊢
  rw [List.map_append]
  simp only [Bool.or_eq_true] at h ⊢
  rcases h with (ha | hb) | hc
  · exact Or.inl (Or.inl (isSuffixOf_append_left _ _ _ ha))
  · exact Or.inl (Or.inr (isSuffixOf_append_left _ _ _ hb))
  · exact Or.inr (isSuffixOf_append_left _ _ _ hc)

theorem isImageMember_created (f : Str) (h : hasImageExt f = true) :
    isImageMember (imagesMemberPre ++ f) = true := by
  unfold isImageMember
  rw [Bool.and_eq_true]
  constructor
  · rw [ List.isPrefixOf_iff_prefix]
    exact List.prefix_append _ _
  · exact hasImageExt_prepend _ _ h

/-- C7: for every catalog directory with a `catalog.csv` and an images
subdirectory holding at least one image-extension file, validating the
archive created from it reports valid, a present CSV, and an image count
equal to the number of image-extension files in the images
subdirectory. -/
theorem validate_valid_eq (members : List Str) :
    (validate_archive (ArchivePath.archive members)).valid
      = (members.contains csvMemberName
          && !(members.filter isImageMember).isEmpty) := rfl

theorem validate_has_csv_eq (members : List Str) :
    (validate_archive (ArchivePath.archive members)).has_csv
      = some (members.contains csvMemberName) := rfl

theorem validate_image_count_eq (members : List Str) :
    (validate_archive (ArchivePath.archive members)).image_count
      = some (members.filter isImageMember).length := rfl

theorem archive_round_trip (d : CatalogDir) (hex : d.dirExists = true)
    (hcsv : d.hasCsv = true) (himg : d.hasImagesDir = true)
    (hne : d.imageFiles.filter hasImageExt ≠ []) :
    ∃ members, create_catalog_archive d = Except.ok members
      ∧ (validate_archive (ArchivePath.archive members)).valid = true
      ∧ (validate_archive (ArchivePath.archive members)).has_csv = some true
      ∧ (validate_archive (ArchivePath.archive members)).image_count
          = some (d.imageFiles.filter hasImageExt).length := by
  have hfilter : (csvMemberName ::
      (d.imageFiles.filter hasImageExt).map (fun f => imagesMemberPre ++ f)).filter
        isImageMember
      = (d.imageFiles.filter hasImageExt).map (fun f => imagesMemberPre ++ f) := by
    rw [List.filter_cons_of_neg (by decide)]
    apply List.filter_eq_self.mpr
    intro a ha
    obtain ⟨f, hf, rfl⟩ := List.mem_map.mp ha
    exact isImageMember_created f (List.mem_filter.mp hf).2
  have hcontains : (csvMemberName ::
      (d.imageFiles.filter hasImageExt).map (fun f => imagesMemberPre ++ f)).contains
        csvMemberName = true := by
    simp
  have hne2 : (d.imageFiles.filter hasImageExt).map (fun f => imagesMemberPre ++ f)
      ≠ [] := by
    simpa [List.map_eq_nil_iff] using hne
  refine ⟨csvMemberName ::
      (d.imageFiles.filter hasImageExt).map (fun f => imagesMemberPre ++ f),
    ?_, ?_, ?_, ?_⟩
  · unfold create_catalog_archive
    rw [hex, hcsv, himg]
    rfl
  · rw [validate_valid_eq, hfilter, hcontains, Bool.true_and, Bool.not_eq_true',
      List.isEmpty_eq_false]
    exact hne2
  · rw [validate_has_csv_eq, hcontains]
  · rw [validate_image_count_eq, hfilter, List.length_map]

/-- Witness for C7 at the concrete directory holding `catalog.csv` and
one image `1-1.jpg`. -/
theorem archive_round_trip_witness :
    ((⟨true, true, true, [("1-1.jpg").data]⟩ : CatalogDir).imageFiles.filter
        hasImageExt ≠ [])
    ∧ ∃ members,
        create_catalog_archive ⟨true, true, true, [("1-1.jpg").data]⟩
          = Except.ok members
        ∧ (validate_archive (ArchivePath.archive members)).valid = true
        ∧ (validate_archive (ArchivePath.archive members)).has_csv = some true
        ∧ (validate_archive (ArchivePath.archive members)).image_count
            = some ((⟨true, true, true, [("1-1.jpg").data]⟩ : CatalogDir).imageFiles.filter
                hasImageExt).length :=
  ⟨by decide, archive_round_trip _ rfl rfl rfl (by decide)⟩

/-- C8: `validate_archive` is total and structured — a missing path and a
malformed zip yield `valid = false` with distinct error variants, and a
readable archive yields `valid = true` exactly when the fixed CSV member
is present and at least one image-extension member sits under the
`images/` prefix (with no error field set). -/
theorem validate_archive_structured :
    (validate_archive ArchivePath.missing).valid = false
    ∧ (validate_archive ArchivePath.missing).error
        = some (("Archive file does not exist").data)
    ∧ (validate_archive ArchivePath.badZip).valid = false
    ∧ (validate_archive ArchivePath.badZip).error
        = some (("Invalid ZIP file").data)
    ∧ (validate_archive ArchivePath.missing).error
        ≠ (validate_archive ArchivePath.badZip).error
    ∧ (∀ members, (validate_archive (ArchivePath.archive members)).error = none)
    ∧ (∀ members, (validate_archive (ArchivePath.archive members)).valid = true
        ↔ csvMemberName ∈ members ∧ ∃ f ∈ members, isImageMember f = true) := by
  refine ⟨rfl, rfl, rfl, rfl, by decide, fun _ => rfl, fun members => ?_⟩
  show (members.contains csvMemberName
      && !(members.filter isImageMember).isEmpty) = true ↔ _
  rw [Bool.and_eq_true, Bool.not_eq_true', List.isEmpty_eq_false]
  constructor
  · rintro ⟨h1, h2⟩
    obtain ⟨f, hf⟩ := List.exists_mem_of_ne_nil _ h2
    obtain ⟨hfm, hfi⟩ := List.mem_filter.mp hf
    exact ⟨List.elem_iff.mp h1, f, hfm, hfi⟩
  · rintro ⟨h1, f, hfm, hfi⟩
    refine ⟨List.elem_iff.mpr h1, ?_⟩
    intro hnil
    have : f ∈ members.filter isImageMember := List.mem_filter.mpr ⟨hfm, hfi⟩
    rw [hnil] at this
    exact absurd this (List.not_mem_nil f)

/-- C9: for every integer `per_page` supplied by the caller, the upstream
request issued by `search_images` carries the effective page size
`min(per_page, 80)`, which never exceeds 80. -/
theorem search_images_per_page_capped (query : Str) (per_page page : Int) :
    (search_images_params query per_page page).per_page = min per_page 80
    ∧ (search_images_params query per_page page).per_page ≤ 80 :=
  ⟨rfl, min_le_right _ _⟩

/-- C10: when the HTTP fetch inside `download_image` fails, the call
errors out with the file set unchanged — no file is created at the
destination path — and the only filesystem effect is the (idempotent)
creation of the download directory itself. -/
theorem download_image_no_file_on_failure (fs : FileSys)
    (filename download_dir : Str) :
    (∃ e, (download_image fs filename download_dir FetchOutcome.failure).2
        = Except.error e)
    ∧ ((download_image fs filename download_dir FetchOutcome.failure).1).files
        = fs.files
    ∧ ((download_image fs filename download_dir FetchOutcome.failure).1).dirs
        = (os_makedirs fs download_dir).dirs
    ∧ (((download_image fs filename download_dir FetchOutcome.failure).1).dirs
          = fs.dirs
        ∨ ((download_image fs filename download_dir FetchOutcome.failure).1).dirs
          = download_dir :: fs.dirs) := by
  have hdirs : ((download_image fs filename download_dir FetchOutcome.failure).1).dirs
      = (if fs.dirs.contains download_dir then fs.dirs else download_dir :: fs.dirs) :=
    rfl
  refine ⟨⟨("Download failed").data, rfl⟩, rfl, rfl, ?_⟩
  rw [hdirs]
  by_cases h : fs.dirs.contains download_dir
  · exact Or.inl (if_pos h)
  · exact Or.inr (if_neg h)

end ShopGen
